import Mathlib

/-!
Shallow embedding of the command-line argument parsing engine of src/build.py
(the classes Reader, Arg, TypeParser and ArgParser, the helper get_idx_by_pos
and the constant POS_APPEND_BACK), with theorems checking the specification's
claims about it.

Python runtime behaviour is made explicit:

* exceptions are values of PyErr threaded through Except;
* loops that can run forever are given fuel (an Option result, none meaning
  the fuel ran out, i.e. the run diverges); for the two loops whose body
  provably never changes any state (Reader.collect and Reader.pcollect, whose
  bodies do not advance the cursor) the definition used by parse is their
  exact denotation, with none for the diverging case, and the direct fuelled
  transcriptions (Reader.collectAux, Reader.pcollectAux) are kept alongside
  and related to the denotations by collect_spec and pcollect_spec;
* Python dictionaries are association lists in insertion order (dictSet
  overwrites an existing entry in place, dictGetStr raises KeyError on a
  missing key, exactly like the subscript operator);
* Python list subscripting is listGet, raising IndexError past the end.
-/

/-- Python exception values the embedded code can raise: KeyError from a dict
subscript, IndexError from a list or string subscript, TypeError from adding a
str and an exception object, and the ArgError class of build.py with its
message. -/
inductive PyErr where
  | keyError (key : String)
  | indexError
  | typeError
  | argError (msg : String)
deriving DecidableEq

/-- Typed values produced by value parsers and switch handlers. -/
inductive Value where
  | str (s : String)
  | bool (b : Bool)
  | int (n : Int)
deriving DecidableEq

/-- The output mapping of parse: a Python dict from argument name to value,
kept in insertion order. -/
abbrev Dict := List (String × Value)

/-- Python dict assignment d[k] = v: overwrite the existing entry in place if
the key is present, otherwise append the new entry at the end. -/
def dictSet {κ α : Type} [BEq κ] : List (κ × α) → κ → α → List (κ × α)
  | [], k, v => [(k, v)]
  | (k', v') :: rest, k, v =>
    if k' == k then (k', v) :: rest else (k', v') :: dictSet rest k v

/-- Python dict subscript d[k]: the stored value, or KeyError when the key is
absent. -/
def dictGetStr {α : Type} : List (String × α) → String → Except PyErr α
  | [], k => .error (.keyError k)
  | (k', v) :: rest, k => if k' == k then .ok v else dictGetStr rest k

/-- Observer used in theorem statements only: lookup returning an Option. -/
def dictFind {κ α : Type} [BEq κ] : List (κ × α) → κ → Option α
  | [], _ => none
  | (k', v) :: rest, k => if k' == k then some v else dictFind rest k

/-- Python list subscript l[i] for a non-negative index: IndexError past the
end of the list. -/
def listGet {α : Type} : List α → Nat → Except PyErr α
  | [], _ => .error .indexError
  | x :: _, 0 => .ok x
  | _ :: rest, n + 1 => listGet rest n

/-- The Reader cursor of build.py: the input characters and an integer
position, which movement may take outside the bounds. -/
structure Reader where
  str : List Char
  idx : Int
deriving DecidableEq

/-- Reader(str) starts at position 0. -/
def Reader.ofString (s : String) : Reader := ⟨s.data, 0⟩

/-- Reader.current: the character at the position, or None when the position
lies outside the bounds. -/
def Reader.current (r : Reader) : Option Char :=
  if r.idx < 0 || (r.str.length : Int) ≤ r.idx then none
  else r.str[r.idx.toNat]?

/-- Reader.next(amt): move the position forward by amt and return the mutated
reader together with the new current character (None outside the bounds). -/
def Reader.next (r : Reader) (amt : Int) : Reader × Option Char :=
  let r2 : Reader := ⟨r.str, r.idx + amt⟩
  (r2, r2.current)

/-- Reader.prev(amt): move the position backward by amt and return the mutated
reader together with the new current character (None outside the bounds). -/
def Reader.prev (r : Reader) (amt : Int) : Reader × Option Char :=
  let r2 : Reader := ⟨r.str, r.idx - amt⟩
  (r2, r2.current)

/-- Reader.peek(off): the character at position+off without moving, or None
outside the bounds. -/
def Reader.peek (r : Reader) (off : Int) : Option Char :=
  let i := r.idx + off
  if (r.str.length : Int) ≤ i || i < 0 then none else r.str[i.toNat]?

/-- Reader.at(index), renamed because at is a Lean keyword. For a positive
index the source returns self.str[index] with no bounds check, so an index at
or past the string length raises IndexError; for a non-positive index the
position self.idx - abs(index) is used, with an explicit bounds check
returning None. -/
def Reader.atIdx (r : Reader) (index : Int) : Except PyErr (Option Char) :=
  if 0 < index then
    if index < (r.str.length : Int) then .ok (r.str[index.toNat]?)
    else .error .indexError
  else
    let i := r.idx - (index.natAbs : Int)
    if (r.str.length : Int) ≤ i || i < 0 then .ok none
    else .ok (r.str[i.toNat]?)

/-- Reader.collect(pred): while current is not None and pred(current) holds,
append current to the accumulator. The loop body never advances the position,
so the guard either fails at once (returning the empty accumulator) or holds
forever (the loop diverges, denoted none). collectAux is the direct fuelled
transcription of the source loop; collect_spec proves the two agree. -/
def Reader.collect (r : Reader) (pred : Char → Bool) : Option (Reader × String) :=
  match r.current with
  | some c => if pred c then none else some (r, "")
  | none => some (r, "")

/-- Direct fuelled transcription of the Reader.collect loop: the body appends
the current character to the accumulator and never advances the position. -/
def Reader.collectAux (r : Reader) (pred : Char → Bool) : Nat → String → Option (Reader × String)
  | 0, _ => none
  | fuel + 1, acc =>
    match r.current with
    | some c => if pred c then r.collectAux pred fuel (acc.push c) else some (r, acc)
    | none => some (r, acc)

/-- Reader.pcollect(pred): same guard as collect with an empty body (pass), so
the loop exits at once or diverges (none); the position never moves. The
source then returns the global built-in str class, which every caller
discards, so the denotation returns the unchanged reader. -/
def Reader.pcollect (r : Reader) (pred : Char → Bool) : Option Reader :=
  match r.current with
  | some c => if pred c then none else some r
  | none => some r

/-- Direct fuelled transcription of the Reader.pcollect loop. -/
def Reader.pcollectAux (r : Reader) (pred : Char → Bool) : Nat → Option Reader
  | 0 => none
  | fuel + 1 =>
    match r.current with
    | some c => if pred c then r.pcollectAux pred fuel else some r
    | none => some r

/-- Python str.isspace() for the one-character strings read off the cursor
(the ASCII whitespace set). -/
def pyIsspace (c : Char) : Bool :=
  c == ' ' || c == '\t' || c == '\n' || c == '\r' || c == '\x0b' || c == '\x0c'

/-- The pos value signalling that a positional argument should be appended to
the end of the positional list. -/
def POS_APPEND_BACK : Int := 0xFFFFFFFF

/-- A parser for one value type: the symbolic tag and the parsing function.
In the source pfunc also receives the engine and the declaration, which are
only ever forwarded, so the model lets each function close over whatever it
needs and passes the cursor; the function returns the parsed value with the
advanced cursor, or raises. -/
structure TypeParser where
  ty : String
  pfunc : Reader → Except PyErr (Value × Reader)

/-- TypeParser.parse delegates to pfunc. -/
def TypeParser.parse (t : TypeParser) (r : Reader) : Except PyErr (Value × Reader) :=
  t.pfunc r

/-- One argument declaration. ty is the object whose parse method parse_val
invokes; sw_handler models the zero-argument switch handler by the value it
produces (handlers are deterministic); pos is the optional position, with
POS_APPEND_BACK as the append-at-end sentinel. -/
structure Arg where
  name : String
  char : Option Char
  ty : TypeParser
  sw_handler : Option Value
  pos : Option Int

/-- Arg.new: a simple named arg (no handler, no position). -/
def Arg.new (name : String) (char : Option Char) (ty : TypeParser) : Arg :=
  ⟨name, char, ty, none, none⟩

/-- Arg.new_positional: a positional arg appended at the back. -/
def Arg.new_positional (name : String) (ty : TypeParser) : Arg :=
  ⟨name, none, ty, none, some POS_APPEND_BACK⟩

/-- Arg.new_positional_at: a positional arg at the specified idx/pos. -/
def Arg.new_positional_at (name : String) (ty : TypeParser) (pos : Int) : Arg :=
  ⟨name, none, ty, none, some pos⟩

/-- Arg.new_switch: a switch arg with a handler. -/
def Arg.new_switch (name : String) (char : Option Char) (ty : TypeParser) (handler : Value) : Arg :=
  ⟨name, char, ty, some handler, none⟩

/-- get_idx_by_pos: index by position/offset into a list of the given
length (a negative pos counts from the end). -/
def get_idx_by_pos (len pos : Int) : Int :=
  if pos < 0 then len + pos else pos

/-- Python list.insert(i, a): a negative index counts from the end and the
effective index is clamped into [0, length]. -/
def pyInsert {α : Type} (l : List α) (i : Int) (a : α) : List α :=
  let n : Nat := if i < 0 then ((l.length : Int) + i).toNat else min i.toNat l.length
  l.take n ++ a :: l.drop n

/-- The engine state of ArgParser: args by name, the positioned list of args,
args by char, and the type parser registry. The by_char and types tables are
written during registration but never read by parse or parse_val. -/
structure ArgParser where
  arg_map : List (String × Arg)
  pos_args : List Arg
  by_char : List (Char × Arg)
  types : List (String × TypeParser)

/-- ArgParser(): all four tables start empty. -/
def ArgParser.empty : ArgParser := ⟨[], [], [], []⟩

/-- define_type: insert or replace the parser registered for a type tag. -/
def ArgParser.define_type (s : ArgParser) (t : TypeParser) : ArgParser :=
  ⟨s.arg_map, s.pos_args, s.by_char, dictSet s.types t.ty t⟩

/-- add: register a declaration. There is no duplicate check on any table:
the dict assignments overwrite an existing name or char entry in place. A
positional arg is appended for the POS_APPEND_BACK sentinel, otherwise
inserted at get_idx_by_pos of its pos. -/
def ArgParser.add (s : ArgParser) (arg : Arg) : ArgParser :=
  let m := dictSet s.arg_map arg.name arg
  let bc := match arg.char with
    | some c => dictSet s.by_char c arg
    | none => s.by_char
  let pa := match arg.pos with
    | none => s.pos_args
    | some p =>
      if p == POS_APPEND_BACK then s.pos_args ++ [arg]
      else pyInsert s.pos_args (get_idx_by_pos (s.pos_args.length : Int) p) arg
  ⟨m, pa, bc, s.types⟩

/-- parse_val: try arg.ty.parse on the cursor. An ArgError is caught, but the
diagnostic print concatenates a str literal with the exception object, which
raises TypeError, so the subsequent re-raise of ArgError (arg parse failed) is
unreachable; any error other than ArgError propagates unchanged. -/
def ArgParser.parse_val (_s : ArgParser) (arg : Arg) (r : Reader) : Except PyErr (Value × Reader) :=
  match arg.ty.parse r with
  | .ok res => .ok res
  | .error (.argError _) => .error .typeError
  | .error e => .error e

/-- Outcome of one iteration of the main loop of parse: the input is
exhausted, an exception was raised, an inner loop diverges, or the loop
continues with a new cursor, positional index and output dict. -/
inductive StepRes where
  | done (out : Dict)
  | fail (e : PyErr)
  | diverge
  | cont (r : Reader) (pIdx : Nat) (out : Dict)

/-- The short-form inner loop of parse: while current is not None and not a
space, look the current character up in arg_map (the by-name dict; by_char is
not consulted), then either advance and parse a value and stop the chain, or
store the switch value, advance one character and continue. A missing key
raises KeyError; the falsy test on the looked-up arg in the source can never
fire (dict values are Arg objects) and is omitted. -/
def shortLoop : Nat → ArgParser → Reader → Dict → Option (Except PyErr (Reader × Dict))
  | 0, _, _, _ => none
  | fuel + 1, s, r, out =>
    match r.current with
    | none => some (.ok (r, out))
    | some ch =>
      if ch == ' ' then some (.ok (r, out))
      else
        match dictGetStr s.arg_map (String.mk [ch]) with
        | .error e => some (.error e)
        | .ok arg =>
          match arg.sw_handler with
          | none =>
            match s.parse_val arg (r.next 1).1 with
            | .error e => some (.error e)
            | .ok (v, r2) => some (.ok (r2, dictSet out arg.name v))
          | some hv => shortLoop fuel s (r.next 1).1 (dictSet out arg.name hv)

/-- One iteration of the main while loop of ArgParser.parse, from the top of
the loop body: skip whitespace with pcollect, then dispatch on long form,
short form or positional. diverge marks a non-terminating run of
Reader.pcollect or Reader.collect, or an exhausted short-chain fuel. The falsy
test on the long-form dict lookup can never fire and is omitted. -/
def parseStep (fuel : Nat) (s : ArgParser) (r : Reader) (pIdx : Nat) (out : Dict) : StepRes :=
  match r.current with
  | none => .done out
  | some _ =>
    match r.pcollect pyIsspace with
    | none => .diverge
    | some r1 =>
      if r1.current == some '-' then
        let n1 := r1.next 1
        if n1.2 == some '-' then
          match (n1.1.next 1).1.collect (fun ch => ch != ' ' && ch != '=') with
          | none => .diverge
          | some (r4, name) =>
            match dictGetStr s.arg_map name with
            | .error e => .fail e
            | .ok arg =>
              match arg.sw_handler with
              | none =>
                match s.parse_val arg (r4.next 1).1 with
                | .error e => .fail e
                | .ok (v, r6) => .cont r6 pIdx (dictSet out arg.name v)
              | some hv =>
                if r4.current == some '=' then
                  match s.parse_val arg (r4.next 1).1 with
                  | .error e => .fail e
                  | .ok (v, r6) => .cont r6 pIdx (dictSet out arg.name v)
                else .cont r4 pIdx (dictSet out arg.name hv)
        else
          match shortLoop fuel s n1.1 out with
          | none => .diverge
          | some (.error e) => .fail e
          | some (.ok (r2, out2)) => .cont r2 pIdx out2
      else
        match listGet s.pos_args pIdx with
        | .error e => .fail e
        | .ok arg =>
          match s.parse_val arg r1 with
          | .error e => .fail e
          | .ok (v, r2) => .cont r2 (pIdx + 1) (dictSet out arg.name v)

/-- The main while loop of ArgParser.parse, fuelled: none when the fuel runs
out or an inner loop diverges, otherwise the raised exception or the final
output dict. -/
def parseLoop : Nat → ArgParser → Reader → Nat → Dict → Option (Except PyErr Dict)
  | 0, _, _, _, _ => none
  | fuel + 1, s, r, pIdx, out =>
    match parseStep (fuel + 1) s r pIdx out with
    | .done o => some (.ok o)
    | .fail e => some (.error e)
    | .diverge => none
    | .cont r2 p2 o2 => parseLoop fuel s r2 p2 o2

/-- ArgParser.parse(str, out): when the supplied out is falsy (None, or an
empty dict), the local name is rebound to a fresh empty dict, leaving the
caller's object untouched; a truthy (non-empty) dict is used, and so extended,
in place. The loop then walks the input from position 0. -/
def ArgParser.parse (s : ArgParser) (fuel : Nat) (input : String) (out : Option Dict) :
    Option (Except PyErr Dict) :=
  parseLoop fuel s (Reader.ofString input) 0
    (match out with
     | none => []
     | some d => if d.isEmpty then [] else d)

/-- A value parser that always raises ArgError. -/
def tyBoom : TypeParser := ⟨"boom", fun _ => .error (.argError "boom")⟩

/-- A value parser returning the single character under the cursor as a
string and advancing past it and the following separator. -/
def tyTok : TypeParser :=
  ⟨"tok", fun r =>
    match r.current with
    | some c => .ok (.str (String.mk [c]), (r.next 2).1)
    | none => .error (.argError "eof")⟩

/-- The engine of the first testable property of the spec: one switch with
name verbose, short char v, and a handler producing true. -/
def c1Engine : ArgParser :=
  ArgParser.empty.add (Arg.new_switch "verbose" (some 'v') tyBoom (.bool true))

/-- An engine with exactly two positional declarations x and y. -/
def c5Engine : ArgParser :=
  (ArgParser.empty.add (Arg.new_positional "x" tyTok)).add (Arg.new_positional "y" tyTok)

/-- An engine with one positional declaration whose value parser raises
ArgError. -/
def c6Engine : ArgParser :=
  ArgParser.empty.add (Arg.new_positional "p" tyBoom)

/-- A named arg whose value parser raises ArgError. -/
def c6Arg : Arg := Arg.new "opt" none tyBoom

/-- Two declarations sharing the name x. -/
def c7a : Arg := Arg.new "x" (some 'p') tyTok

/-- Second declaration with the name x. -/
def c7b : Arg := Arg.new "x" (some 'q') tyTok

/-- Two declarations sharing the short char v. -/
def c7c : Arg := Arg.new "m" (some 'v') tyTok

/-- Second declaration with the short char v. -/
def c7d : Arg := Arg.new "n" (some 'v') tyTok

/-- Positional declaration a with explicit position 0. -/
def c8a : Arg := Arg.new_positional_at "a" tyTok 0

/-- Positional declaration b, appended at the end. -/
def c8b : Arg := Arg.new_positional "b" tyTok

/-- Helper: the fuelled collect loop runs forever (returns none for every
fuel) as soon as the predicate matches the current character, because the
body never advances the cursor. -/
theorem collectAux_diverges (r : Reader) (pred : Char → Bool) (c : Char)
    (h1 : r.current = some c) (h2 : pred c = true) :
    ∀ fuel acc, r.collectAux pred fuel acc = none := by
  intro fuel
  induction fuel with
  | zero => intro acc; rfl
  | succ n ih =>
    intro acc
    simp only [Reader.collectAux, h1, h2, if_true]
    exact ih (acc.push c)

/-- Helper: the fuelled pcollect loop runs forever as soon as the predicate
matches the current character. -/
theorem pcollectAux_diverges (r : Reader) (pred : Char → Bool) (c : Char)
    (h1 : r.current = some c) (h2 : pred c = true) :
    ∀ fuel, r.pcollectAux pred fuel = none := by
  intro fuel
  induction fuel with
  | zero => rfl
  | succ n ih =>
    simp only [Reader.pcollectAux, h1, h2, if_true]
    exact ih

/-- The denotation Reader.collect agrees with the direct fuelled loop
transcription collectAux: a none result means the loop runs out of any amount
of fuel, and a some result is reached by every positive amount of fuel. -/
theorem collect_spec (r : Reader) (pred : Char → Bool) :
    (r.collect pred = none → ∀ fuel acc, r.collectAux pred fuel acc = none) ∧
    (∀ res, r.collect pred = some res → ∀ fuel, r.collectAux pred (fuel + 1) "" = some res) := by
  constructor
  · intro h fuel acc
    cases hc : r.current with
    | none => simp [Reader.collect, hc] at h
    | some c =>
      by_cases hp : pred c = true
      · exact collectAux_diverges r pred c hc hp fuel acc
      · simp [Reader.collect, hc, hp] at h
  · intro res h fuel
    cases hc : r.current with
    | none =>
      simp [Reader.collect, hc] at h
      simp [Reader.collectAux, hc, ← h]
    | some c =>
      by_cases hp : pred c = true
      · simp [Reader.collect, hc, hp] at h
      · simp [Reader.collect, hc, hp] at h
        simp [Reader.collectAux, hc, hp, ← h]

/-- The denotation Reader.pcollect agrees with the direct fuelled loop
transcription pcollectAux. -/
theorem pcollect_spec (r : Reader) (pred : Char → Bool) :
    (r.pcollect pred = none → ∀ fuel, r.pcollectAux pred fuel = none) ∧
    (∀ res, r.pcollect pred = some res → ∀ fuel, r.pcollectAux pred (fuel + 1) = some res) := by
  constructor
  · intro h fuel
    cases hc : r.current with
    | none => simp [Reader.pcollect, hc] at h
    | some c =>
      by_cases hp : pred c = true
      · exact pcollectAux_diverges r pred c hc hp fuel
      · simp [Reader.pcollect, hc, hp] at h
  · intro res h fuel
    cases hc : r.current with
    | none =>
      simp [Reader.pcollect, hc] at h
      simp [Reader.pcollectAux, hc, ← h]
    | some c =>
      by_cases hp : pred c = true
      · simp [Reader.pcollect, hc, hp] at h
      · simp [Reader.pcollect, hc, hp] at h
        simp [Reader.pcollectAux, hc, hp, ← h]

/-- Helper: looking a key up right after setting it yields the new value. -/
theorem dictFind_dictSet {κ α : Type} [BEq κ] [LawfulBEq κ]
    (d : List (κ × α)) (k : κ) (v : α) : dictFind (dictSet d k v) k = some v := by
  induction d with
  | nil => simp [dictSet, dictFind]
  | cons hd tl ih =>
    obtain ⟨k', v'⟩ := hd
    by_cases h : (k' == k) = true
    · simp [dictSet, dictFind, h]
    · simp only [dictSet, h, Bool.false_eq_true, if_false]
      simp [dictFind, h, ih]

/-- Helper: Python list subscripting past the end raises IndexError. -/
theorem listGet_ge {α : Type} (l : List α) (n : Nat) (h : l.length ≤ n) :
    listGet l n = .error .indexError := by
  induction l generalizing n with
  | nil => cases n <;> rfl
  | cons x rest ih =>
    cases n with
    | zero => simp at h
    | succ m => exact ih m (by simpa using h)

/-- C1. The claim says the short-form branch resolves a short character
through the by_char table, so that after registering the switch verbose with
short char v, parse of the token -v yields a mapping with verbose set to
true. The code instead looks the character up in arg_map, the by-name dict
(by_char is populated but never read), so parse raises KeyError for the key
v before any handler runs. -/
theorem c1_short_flag_keyerror :
    c1Engine.parse 20 "-v" (some []) = some (.error (.keyError "v")) ∧
    dictFind c1Engine.by_char 'v' =
      some (Arg.new_switch "verbose" (some 'v') tyBoom (.bool true)) := ⟨rfl, rfl⟩

/-- C2. The claim says parse of a long-form token with an unregistered name
raises the engine's UnknownArgument ArgError. Instead, reading the name with
Reader.collect never terminates (the loop does not advance the cursor), so
parse of --missing=1 on an empty engine diverges for every amount of fuel;
the unknown-name ArgError in the source is unreachable even in principle,
since the dict subscript would raise KeyError first. -/
theorem c2_unknown_long_diverges :
    ∀ fuel, ArgParser.empty.parse fuel "--missing=1" (some []) = none := by
  intro fuel
  cases fuel with
  | zero => rfl
  | succ n => rfl

/-- Witness for c2_unknown_long_diverges at a concrete fuel. -/
theorem c2_unknown_long_diverges_witness :
    ArgParser.empty.parse 7 "--missing=1" (some []) = none :=
  c2_unknown_long_diverges 7

/-- C3. The claim says consumeWhile (Reader.collect) and skipWhile
(Reader.pcollect) always terminate because every matching iteration advances
the cursor. In the code neither loop body moves the cursor, so whenever the
predicate matches the current character both loops run forever: the fuelled
transcriptions return none for every fuel, and the denotations are none. -/
theorem c3_collect_loops_forever (r : Reader) (pred : Char → Bool) (c : Char)
    (h1 : r.current = some c) (h2 : pred c = true) :
    (∀ fuel acc, r.collectAux pred fuel acc = none) ∧
    (∀ fuel, r.pcollectAux pred fuel = none) ∧
    r.collect pred = none ∧ r.pcollect pred = none := by
  refine ⟨collectAux_diverges r pred c h1 h2, pcollectAux_diverges r pred c h1 h2, ?_, ?_⟩
  · simp [Reader.collect, h1, h2]
  · simp [Reader.pcollect, h1, h2]

/-- Witness for c3_collect_loops_forever on the one-character input a with an
always-true predicate, at a concrete fuel. -/
theorem c3_collect_loops_forever_witness :
    (Reader.ofString "a").collectAux (fun _ => true) 5 "" = none ∧
    (Reader.ofString "a").pcollectAux (fun _ => true) 5 = none := by
  have h := c3_collect_loops_forever (Reader.ofString "a") (fun _ => true) 'a' rfl rfl
  exact ⟨h.1 5 "", h.2.1 5⟩

/-- C4. The claim says every cursor accessor returns the absent sentinel
outside the bounds, including at with a positive index at or past the string
length. The positive branch of Reader.at has no bounds check: on the
two-character input ab, at(5) raises IndexError, while the non-positive
branch and an in-range positive index behave as claimed. -/
theorem c4_at_positive_unchecked :
    (Reader.ofString "ab").atIdx 5 = .error .indexError ∧
    (Reader.ofString "ab").atIdx (-5) = .ok none ∧
    (Reader.ofString "ab").atIdx 1 = .ok (some 'b') := ⟨rfl, rfl, rfl⟩

/-- C5 counterexample. With exactly two positional declarations, parse of
1 2 3 does fail at the third bare token, but with a plain IndexError from
subscripting pos_args past its end, not with a PositionalOverflow ArgError:
no ArgError of any message is raised. -/
theorem c5_three_positionals_indexerror :
    c5Engine.parse 20 "1 2 3" (some []) = some (.error .indexError) ∧
    (match c5Engine.parse 20 "1 2 3" (some []) with
     | some (.error (.argError _)) => False
     | _ => True) := ⟨rfl, trivial⟩

/-- Helper: when the cursor stands on a non-space character that is not a
dash and the positional declarations are exhausted, one parse iteration
raises IndexError. -/
theorem parseStep_positional_overflow (fuel : Nat) (s : ArgParser) (r : Reader)
    (pIdx : Nat) (out : Dict) (c : Char) (h1 : r.current = some c)
    (h2 : pyIsspace c = false) (h3 : c ≠ '-') (h4 : s.pos_args.length ≤ pIdx) :
    parseStep fuel s r pIdx out = .fail .indexError := by
  have hpc : r.pcollect pyIsspace = some r := by
    simp [Reader.pcollect, h1, h2]
  have h5 : ((some c : Option Char) == some '-') = false := by
    simp [h3]
  have hlg : listGet s.pos_args pIdx = .error .indexError := listGet_ge _ _ h4
  simp [parseStep, h1, hpc, h5, hlg]

/-- C5 amended. For every engine whose positional list has k declarations,
whenever the main loop meets a bare token (a non-space character that is not
a dash) with the positional index already at k, parse fails with a Python
IndexError from pos_args, not with a dedicated ArgError. -/
theorem c5_positional_overflow_amended (s : ArgParser) (fuel : Nat) (r : Reader)
    (pIdx : Nat) (out : Dict) (c : Char) (h1 : r.current = some c)
    (h2 : pyIsspace c = false) (h3 : c ≠ '-') (h4 : s.pos_args.length ≤ pIdx) :
    parseLoop (fuel + 1) s r pIdx out = some (.error .indexError) := by
  have hstep := parseStep_positional_overflow (fuel + 1) s r pIdx out c h1 h2 h3 h4
  simp [parseLoop, hstep]

/-- Witness for c5_positional_overflow_amended: the two-positional engine at
the third bare token. -/
theorem c5_positional_overflow_amended_witness :
    parseLoop 1 c5Engine (Reader.ofString "3") 2 [] = some (.error .indexError) :=
  c5_positional_overflow_amended c5Engine 0 (Reader.ofString "3") 2 [] '3' rfl rfl
    (by decide) (by decide)

/-- C6 counterexample. The claim says a failing value parser leads to an
ArgError carrying the declaration's name and the underlying cause. On a
declaration whose value parser raises ArgError, parse_val instead raises a
bare TypeError (the diagnostic print concatenates a str with the exception
object), which carries neither and is not an ArgError of any message. -/
theorem c6_value_error_counterexample :
    ArgParser.empty.parse_val c6Arg (Reader.ofString "z") = .error .typeError ∧
    (match ArgParser.empty.parse_val c6Arg (Reader.ofString "z") with
     | .error (.argError _) => False
     | _ => True) := ⟨rfl, trivial⟩

/-- C6 amended. parse_val catches only ArgError from the value parser; the
catch replaces it with a TypeError carrying neither name nor cause (the
re-raise of ArgError is unreachable). Failures of any other kind, and
successes, pass through unchanged, and parse propagates the resulting
error, as the concrete run of the engine with a failing positional parser
shows. -/
theorem c6_parse_val_amended :
    (∀ (s : ArgParser) (arg : Arg) (r : Reader) (m : String),
        arg.ty.pfunc r = .error (.argError m) → s.parse_val arg r = .error .typeError) ∧
    (∀ (s : ArgParser) (arg : Arg) (r : Reader),
        arg.ty.pfunc r = .error .indexError → s.parse_val arg r = .error .indexError) ∧
    (∀ (s : ArgParser) (arg : Arg) (r : Reader) (k : String),
        arg.ty.pfunc r = .error (.keyError k) → s.parse_val arg r = .error (.keyError k)) ∧
    (∀ (s : ArgParser) (arg : Arg) (r : Reader) (v : Value) (r2 : Reader),
        arg.ty.pfunc r = .ok (v, r2) → s.parse_val arg r = .ok (v, r2)) ∧
    c6Engine.parse 20 "z" (some []) = some (.error .typeError) := by
  refine ⟨?_, ?_, ?_, ?_, rfl⟩
  · intro s arg r m h
    simp [ArgParser.parse_val, TypeParser.parse, h]
  · intro s arg r h
    simp [ArgParser.parse_val, TypeParser.parse, h]
  · intro s arg r k h
    simp [ArgParser.parse_val, TypeParser.parse, h]
  · intro s arg r v r2 h
    simp [ArgParser.parse_val, TypeParser.parse, h]

/-- Witness for c6_parse_val_amended on the concrete failing declaration. -/
theorem c6_parse_val_amended_witness :
    ArgParser.empty.parse_val c6Arg (Reader.ofString "q") = .error .typeError :=
  c6_parse_val_amended.1 ArgParser.empty c6Arg (Reader.ofString "q") "boom" rfl

/-- C7 counterexample. The claim says registering a duplicate name fails with
DuplicateName and a duplicate short char fails with DuplicateChar, and that
registration never silently replaces a declaration. add has no duplicate
check and cannot fail: adding two declarations named x leaves only the second
in arg_map, and adding two declarations with short char v leaves only the
second in by_char. -/
theorem c7_duplicate_silently_replaces :
    ((ArgParser.empty.add c7a).add c7b).arg_map = [("x", c7b)] ∧
    ((ArgParser.empty.add c7c).add c7d).by_char = [('v', c7d)] := ⟨rfl, rfl⟩

/-- C7 amended. Registration performs no duplicate detection and never
fails: adding a declaration whose name is already a key of arg_map, or whose
short char is already a key of by_char, silently overwrites the existing
entry, so the later declaration wins. -/
theorem c7_add_overwrites_amended :
    (∀ (s : ArgParser) (a1 a2 : Arg), a1.name = a2.name →
        dictFind ((s.add a1).add a2).arg_map a2.name = some a2) ∧
    (∀ (s : ArgParser) (a1 a2 : Arg) (c : Char), a1.char = some c → a2.char = some c →
        dictFind ((s.add a1).add a2).by_char c = some a2) := by
  constructor
  · intro s a1 a2 _
    simp [ArgParser.add, dictFind_dictSet]
  · intro s a1 a2 c h1 h2
    simp [ArgParser.add, h1, h2, dictFind_dictSet]

/-- Witness for c7_add_overwrites_amended on the two declarations named x. -/
theorem c7_add_overwrites_amended_witness :
    dictFind ((ArgParser.empty.add c7a).add c7b).arg_map "x" = some c7b :=
  c7_add_overwrites_amended.1 ArgParser.empty c7a c7b rfl

/-- C8. The positional order follows list-insert semantics: an append-at-end
declaration (pos = POS_APPEND_BACK) goes to the back in registration order;
an explicit non-negative position within the list inserts there, shifting
later entries; a negative position is taken relative to the end of the list;
and concretely, registering b (append at end) and then a (explicit position
0) yields the effective order a before b. -/
theorem c8_positional_insert_order :
    (∀ (s : ArgParser) (a : Arg), a.pos = some POS_APPEND_BACK →
        (s.add a).pos_args = s.pos_args ++ [a]) ∧
    (∀ (s : ArgParser) (a : Arg) (p : Int), a.pos = some p → p ≠ POS_APPEND_BACK →
        0 ≤ p → p ≤ (s.pos_args.length : Int) →
        (s.add a).pos_args = s.pos_args.take p.toNat ++ a :: s.pos_args.drop p.toNat) ∧
    (∀ (s : ArgParser) (a : Arg) (p : Int), a.pos = some p → p < 0 →
        0 ≤ (s.pos_args.length : Int) + p →
        (s.add a).pos_args =
          s.pos_args.take ((s.pos_args.length : Int) + p).toNat ++
            a :: s.pos_args.drop ((s.pos_args.length : Int) + p).toNat) ∧
    ((ArgParser.empty.add c8b).add c8a).pos_args = [c8a, c8b] := by
  refine ⟨?_, ?_, ?_, rfl⟩
  · intro s a h
    simp [ArgParser.add, h]
  · intro s a p h hne h0 hlen
    have hbeq : (p == POS_APPEND_BACK) = false := by simp [hne]
    have hnlt : ¬ p < 0 := not_lt.mpr h0
    have hmin : min p.toNat s.pos_args.length = p.toNat :=
      Nat.min_eq_left (Int.toNat_le.mpr hlen)
    simp [ArgParser.add, h, hbeq, pyInsert, get_idx_by_pos, hnlt, hmin]
  · intro s a p h hneg hge
    have hne : p ≠ POS_APPEND_BACK := by
      intro hEq
      rw [hEq] at hneg
      norm_num [POS_APPEND_BACK] at hneg
    have hbeq : (p == POS_APPEND_BACK) = false := by simp [hne]
    have hnlt : ¬ ((s.pos_args.length : Int) + p < 0) := not_lt.mpr hge
    have hmin : min ((s.pos_args.length : Int) + p).toNat s.pos_args.length =
        ((s.pos_args.length : Int) + p).toNat := by
      apply Nat.min_eq_left
      apply Int.toNat_le.mpr
      omega
    simp [ArgParser.add, h, hbeq, pyInsert, get_idx_by_pos, hneg, hnlt, hmin]

/-- Witness for c8_positional_insert_order: appending b at the end of the
empty engine. -/
theorem c8_positional_insert_order_witness :
    (ArgParser.empty.add c8b).pos_args = ArgParser.empty.pos_args ++ [c8b] :=
  c8_positional_insert_order.1 ArgParser.empty c8b rfl

/-- C9. With a fixed registration state (value parsers and switch handlers
are deterministic functions in the embedding), two calls of parse on the same
input text with freshly-empty output mappings produce equal results. -/
theorem c9_parse_deterministic (s : ArgParser) (fuel : Nat) (input : String)
    (o1 o2 : Dict) (h1 : o1 = []) (h2 : o2 = []) :
    s.parse fuel input (some o1) = s.parse fuel input (some o2) := by
  subst h1
  subst h2
  rfl

/-- Witness for c9_parse_deterministic on the switch engine and the input
-v. -/
theorem c9_parse_deterministic_witness :
    c1Engine.parse 20 "-v" (some []) = c1Engine.parse 20 "-v" (some []) :=
  c9_parse_deterministic c1Engine 20 "-v" [] [] rfl rfl

/-- C10. A falsy out argument (None or the empty dict) makes parse rebind the
local to a fresh empty dict: the result accumulates from the empty mapping
whatever empty object the caller supplied, and the caller's object is not the
one written to. A truthy (non-empty) caller dict is itself the mapping the
loop extends and returns. -/
theorem c10_out_dict_fresh_or_in_place :
    (∀ (s : ArgParser) (fuel : Nat) (input : String),
        s.parse fuel input none = parseLoop fuel s (Reader.ofString input) 0 []) ∧
    (∀ (s : ArgParser) (fuel : Nat) (input : String) (d : Dict), d = [] →
        s.parse fuel input (some d) = parseLoop fuel s (Reader.ofString input) 0 []) ∧
    (∀ (s : ArgParser) (fuel : Nat) (input : String) (d : Dict), d ≠ [] →
        s.parse fuel input (some d) = parseLoop fuel s (Reader.ofString input) 0 d) := by
  refine ⟨fun s fuel input => rfl, ?_, ?_⟩
  · intro s fuel input d h
    subst h
    rfl
  · intro s fuel input d h
    have hE : d.isEmpty = false := by
      cases d with
      | nil => exact absurd rfl h
      | cons x xs => rfl
    simp [ArgParser.parse, hE]

/-- Witness for c10_out_dict_fresh_or_in_place with a non-empty caller
dict. -/
theorem c10_out_dict_fresh_or_in_place_witness :
    ArgParser.empty.parse 5 "" (some [("k", Value.int 1)]) =
      parseLoop 5 ArgParser.empty (Reader.ofString "") 0 [("k", Value.int 1)] :=
  c10_out_dict_fresh_or_in_place.2.2 ArgParser.empty 5 "" [("k", Value.int 1)] (by simp)
